import Mathlib

/-!
Verification of the mDNS core: the primitive wire codec (`message/packer.rs`)
and the connection/query engine (`conn/mod.rs`).

Buffers (`Vec<u8>` / `&[u8]`) are modelled as `List Nat` with the invariant
`bytesWF` (every byte below 256) stated where a proof needs it.  Rust strings
are modelled as their byte lists in the codec (a `&str` is a byte sequence;
UTF-8 validation of bytes that came from a string always succeeds) and as
Lean `String`s in the engine, whose name comparisons are plain equality.
Fallible Rust functions returning `Result<_, Error>` become `Except DnsError _`.
-/

namespace Mdns

/-- The error constants of `errors.rs` that the two core files use. -/
inductive DnsError
  | errBaseLen
  | errCalcLen
  | errStringTooLong
  | errConnectionClosed
  | errSectionDone
  | errNotStarted
  | errUnexpectedV6
  | errName
  deriving DecidableEq, Repr

/-- A byte buffer (`Vec<u8>` / `&[u8]`). -/
abbrev Bytes := List Nat

/-- Well-formedness of a byte buffer: every element is an actual byte. -/
def bytesWF (msg : Bytes) : Prop := ∀ b ∈ msg, b < 256

def UINT16LEN : Nat := 2

def UINT32LEN : Nat := 4

/-- `pack_bytes` appends the wire format of `field` to `msg`. -/
def pack_bytes (msg : Bytes) (field : Bytes) : Bytes :=
  msg ++ field

/-- `unpack_bytes msg off flen`: reads `flen` bytes (the length of the `field`
out-parameter slice in the Rust code) at `off`, returning the bytes read and
the new offset. -/
def unpack_bytes (msg : Bytes) (off : Nat) (flen : Nat) : Except DnsError (Bytes × Nat) :=
  if off + flen > msg.length then .error .errBaseLen
  else .ok ((msg.drop off).take flen, off + flen)

/-- `pack_uint16` appends the wire format of `field` to `msg`
(`u16::to_be_bytes`: high byte, then low byte). -/
def pack_uint16 (msg : Bytes) (field : Nat) : Bytes :=
  msg ++ [(field >>> 8) % 256, field % 256]

def unpack_uint16 (msg : Bytes) (off : Nat) : Except DnsError (Nat × Nat) :=
  if off + UINT16LEN > msg.length then .error .errBaseLen
  else .ok ((msg.getD off 0 <<< 8) ||| msg.getD (off + 1) 0, off + UINT16LEN)

def skip_uint16 (msg : Bytes) (off : Nat) : Except DnsError Nat :=
  if off + UINT16LEN > msg.length then .error .errBaseLen
  else .ok (off + UINT16LEN)

/-- `pack_uint32` appends the wire format of `field` to `msg`
(`u32::to_be_bytes`: most significant byte first). -/
def pack_uint32 (msg : Bytes) (field : Nat) : Bytes :=
  msg ++ [(field >>> 24) % 256, (field >>> 16) % 256, (field >>> 8) % 256, field % 256]

def unpack_uint32 (msg : Bytes) (off : Nat) : Except DnsError (Nat × Nat) :=
  if off + UINT32LEN > msg.length then .error .errBaseLen
  else
    .ok ((msg.getD off 0 <<< 24) ||| (msg.getD (off + 1) 0 <<< 16) |||
          (msg.getD (off + 2) 0 <<< 8) ||| msg.getD (off + 3) 0,
         off + UINT32LEN)

def skip_uint32 (msg : Bytes) (off : Nat) : Except DnsError Nat :=
  if off + UINT32LEN > msg.length then .error .errBaseLen
  else .ok (off + UINT32LEN)

/-- `pack_str` appends the wire format of `field` (a character-string: one
length byte then the bytes) to `msg`.  The `l as u8` cast is `% 256`, an
identity under the guard `l ≤ 255`. -/
def pack_str (msg : Bytes) (field : Bytes) : Except DnsError Bytes :=
  if field.length > 255 then .error .errStringTooLong
  else .ok (msg ++ field.length % 256 :: field)

/-- `unpack_str` reads a length byte at `off`, then that many bytes
(`begin_off = off + 1`, `end_off = begin_off + msg[off]`, inlined here). -/
def unpack_str (msg : Bytes) (off : Nat) : Except DnsError (Bytes × Nat) :=
  if off ≥ msg.length then .error .errBaseLen
  else if off + 1 + msg.getD off 0 > msg.length then .error .errCalcLen
  else .ok ((msg.drop (off + 1)).take (msg.getD off 0), off + 1 + msg.getD off 0)

/-! ## Connection engine data model (`conn/mod.rs`) -/

def MAX_MESSAGE_RECORDS : Nat := 3

def RESPONSE_TTL : Nat := 120

def DNSCLASS_INET : Nat := 1

inductive DNSType
  | A
  | AAAA
  | other (code : Nat)
  deriving DecidableEq, Repr

inductive IpAddr
  | v4 (o1 o2 o3 o4 : Nat)
  | v6 (segs : List Nat)
  deriving DecidableEq, Repr

structure SocketAddr where
  ip : IpAddr
  port : Nat
  deriving DecidableEq, Repr

/-- A question as decoded by the message parser; `name` is the decoded
trailing-dot string (`q.name.data` in the Rust code). -/
structure Question where
  name : String
  typ : DNSType
  dnsclass : Nat
  deriving DecidableEq, Repr

/-- Modelled from the spec: `ResourceHeader{name, type, class, ttl, data_length}`
(§3 of the spec; the struct itself lives in `message/resource`, outside the
two core files). -/
structure ResourceHeader where
  name : String
  typ : DNSType
  dnsclass : Nat
  ttl : Nat
  data_length : Nat
  deriving DecidableEq, Repr

/-- A pending query registered in the shared registry; `chanId` identifies its
completion channel (`query_result_chan`). -/
structure Query where
  name_with_suffix : String
  chanId : Nat
  deriving DecidableEq, Repr

/-- One delivery on a completion channel: the `QueryResult {answer, addr}` sent
to the channel identified by `chanId`. -/
structure QueryResult where
  chanId : Nat
  answer : ResourceHeader
  addr : SocketAddr
  deriving DecidableEq, Repr

/-- Modelled from the spec: the Name codec's dot-splitting (§4.2), written as
structural recursion over the character list.  `splitLabels l` is the list of
segments of `l` between dots. -/
def splitLabels : List Char → List (List Char)
  | [] => [[]]
  | c :: rest =>
    let r := splitLabels rest
    if c = '.' then [] :: r
    else (c :: r.headD []) :: r.tail

/-- Modelled from the spec: validity of a name for the Name codec pack path
(§4.2/§6: each label is packed length-prefixed, labels are 1–63 bytes; empty
segments are skipped).  `Name::new` and `Message::pack` live outside the two
core files; on the engine's answer path they succeed exactly on such names. -/
def nameWF (name : String) : Bool :=
  (splitLabels name.data).all (fun l => l.length ≤ 63)

/-- The answer message built and transmitted by `send_answer`: an A record
named `name` with 4-byte body `body` and TTL `RESPONSE_TTL`, sent to
`dst_addr`. -/
structure Transmission where
  name : String
  typ : DNSType
  body : List Nat
  ttl : Nat
  dst_addr : SocketAddr
  deriving DecidableEq, Repr

/-- `send_answer(socket, name, dst, dst_addr)`: builds the authoritative
A-record response.  `Name::new(name)?` is evaluated first (the header field),
then the body match on `dst`, which rejects IPv6; on success the packed message
is transmitted to `dst_addr`. -/
def send_answer (name : String) (dst : IpAddr) (dst_addr : SocketAddr) :
    Except DnsError Transmission :=
  if nameWF name then
    match dst with
    | .v4 o1 o2 o3 o4 => .ok ⟨name, DNSType.A, [o1, o2, o3, o4], RESPONSE_TTL, dst_addr⟩
    | .v6 _ => .error .errUnexpectedV6
  else .error .errName

/-- The inner `for local_name in local_names` loop of `run` for one question:
each matching local name triggers `send_answer`; a `send_answer` error is
logged and skipped, a success is one transmission. -/
def processQuestion (local_names : List String) (src : SocketAddr)
    (dst_addr : SocketAddr) (q : Question) : List Transmission :=
  local_names.filterMap (fun local_name =>
    if local_name = q.name then (send_answer q.name src.ip dst_addr).toOption else none)

/-- The registry scan of `run` (`for j in (0..qs.len()).rev()`): `j` counts
down from the initial length; index `j` is examined, and on a name match the
entry is delivered and removed (`qs.remove(j)`), which only shifts indices the
loop has already passed. -/
def deliverLoop (a : ResourceHeader) (src : SocketAddr) :
    Nat → List Query → List Query × List QueryResult
  | 0, qs => (qs, [])
  | j + 1, qs =>
    match qs[j]? with
    | some q =>
      if q.name_with_suffix = a.name then
        let r := deliverLoop a src j (qs.eraseIdx j)
        (r.1, ⟨q.chanId, a, src⟩ :: r.2)
      else deliverLoop a src j qs
    | none => deliverLoop a src j qs

/-- `match_and_deliver`: scan the whole registry, most-recently-registered
first, delivering and removing every entry whose name equals the answer's. -/
def matchAndDeliver (a : ResourceHeader) (src : SocketAddr) (qs : List Query) :
    List Query × List QueryResult :=
  deliverLoop a src qs.length qs

/-- One answer record's processing in `run`: records that are neither A nor
AAAA are skipped, others are matched against the registry. -/
def processAnswer (a : ResourceHeader) (src : SocketAddr) (qs : List Query) :
    List Query × List QueryResult :=
  if a.typ ≠ DNSType.A ∧ a.typ ≠ DNSType.AAAA then (qs, [])
  else matchAndDeliver a src qs

/-- Modelled from the spec: the sequential Parser's per-section state (§4.4),
for a successfully started datagram: the questions and answers not yet
consumed.  (`parser.rs` lives outside the two core files.) -/
structure ParserState where
  questions : List Question
  answers : List ResourceHeader
  deriving DecidableEq, Repr

/-- Modelled from the spec: `question()` returns the next question, or the
distinguished section-done condition when the question counter is zero. -/
def ParserState.question (p : ParserState) : Except DnsError (Question × ParserState) :=
  match p.questions with
  | [] => .error .errSectionDone
  | q :: rest => .ok (q, { p with questions := rest })

/-- Modelled from the spec: `answer_header()` returns the next answer header;
sections must be consumed in order (§4.4), so with questions still pending it
fails with a not-started error rather than section-done. -/
def ParserState.answer_header (p : ParserState) : Except DnsError (ResourceHeader × ParserState) :=
  match p.questions with
  | _ :: _ => .error .errNotStarted
  | [] =>
    match p.answers with
    | [] => .error .errSectionDone
    | a :: rest => .ok (a, { p with answers := rest })

/-- The question loop of `run`: `for _ in 0..=MAX_MESSAGE_RECORDS`, i.e. at
most `MAX_MESSAGE_RECORDS + 1` iterations; a section-done from `question()`
breaks out, a question is checked against every local name. -/
def runQuestionLoop (local_names : List String) (src : SocketAddr) (dst_addr : SocketAddr) :
    Nat → ParserState → ParserState × List Transmission
  | 0, p => (p, [])
  | fuel + 1, p =>
    match p.question with
    | .error _ => (p, [])
    | .ok (q, p1) =>
      let ts := processQuestion local_names src dst_addr q
      let r := runQuestionLoop local_names src dst_addr fuel p1
      (r.1, ts ++ r.2)

/-- The answer loop of `run`: at most `MAX_MESSAGE_RECORDS + 1` iterations;
any `answer_header()` error returns, an A/AAAA record is matched against the
registry. -/
def runAnswerLoop (src : SocketAddr) :
    Nat → ParserState → List Query → ParserState × List Query × List QueryResult
  | 0, p, qs => (p, qs, [])
  | fuel + 1, p, qs =>
    match p.answer_header with
    | .error _ => (p, qs, [])
    | .ok (a, p1) =>
      if a.typ ≠ DNSType.A ∧ a.typ ≠ DNSType.AAAA then
        runAnswerLoop src fuel p1 qs
      else
        let d := matchAndDeliver a src qs
        let r := runAnswerLoop src fuel p1 d.1
        (r.1, r.2.1, d.2 ++ r.2.2)

/-- The outcome of `run` on one parsed datagram. -/
structure RunResult where
  parser : ParserState
  transmissions : List Transmission
  queries : List Query
  deliveries : List QueryResult
  deriving DecidableEq, Repr

/-- `run`: drain the question section (bounded by `MAX_MESSAGE_RECORDS + 1`
iterations), then the answer section (same bound). -/
def run (p : ParserState) (local_names : List String) (src : SocketAddr)
    (dst_addr : SocketAddr) (queries : List Query) : RunResult :=
  let qr := runQuestionLoop local_names src dst_addr (MAX_MESSAGE_RECORDS + 1) p
  let ar := runAnswerLoop src (MAX_MESSAGE_RECORDS + 1) qr.1 queries
  ⟨ar.1, qr.2, ar.2.1, ar.2.2⟩

/-- `DNSConn::query`: the registered pending-query key,
`name.to_owned() + "."`, with the dot appended unconditionally. -/
def name_with_suffix (name : String) : String := name ++ "."

/-- `DNSConn::server`: the stored local-name table,
`config.local_names.iter().map(|l| l.to_string() + ".")`. -/
def serverLocalNames (local_names : List String) : List String :=
  local_names.map (fun l => l ++ ".")

/-- The close-relevant state of a connection: the `is_server_closed` flag. -/
structure DNSConnState where
  is_server_closed : Bool
  deriving DecidableEq, Repr

/-- `DNSConn::close` together with the server loop's receipt of the close
signal (which stores `true` into the flag), taken as one atomic transition:
an already-closed connection fails with the connection-closed error, otherwise
the signal is sent, the loop stops and sets the flag, and `Ok` is returned. -/
def close (s : DNSConnState) : DNSConnState × Except DnsError Unit :=
  if s.is_server_closed then (s, .error .errConnectionClosed)
  else ({ is_server_closed := true }, .ok ())

/-- Is the head of a reversed character list a dot? -/
def headIsDot : List Char → Bool
  | [] => false
  | c :: _ => c == '.'

/-- Does a reversed character list start with exactly one dot? -/
def singleDotRev : List Char → Bool
  | [] => false
  | [c] => c == '.'
  | c1 :: c2 :: _ => c1 == '.' && c2 != '.'

/-- Does the string end in a dot? -/
def endsWithDot (s : String) : Bool := headIsDot s.data.reverse

/-- Does the string end in exactly one dot (a dot not preceded by another
dot), as every wire-decoded name does? -/
def singleTrailingDot (s : String) : Bool := singleDotRev s.data.reverse

/-! ## Theorems -/

/-- C2: every primitive unpack operation (`unpack_bytes`, `unpack_uint16`,
`unpack_uint32`, `unpack_str`, `skip_uint16`, `skip_uint32`) returns a length
error whenever the bytes it would consume extend past the end of the buffer,
and on success the consumed region lies within the buffer (the new offset is
at most the buffer length and the returned value is a function of the
in-bounds slice), so no out-of-bounds read occurs. -/
theorem c2_primitive_unpack_bounds (msg : Bytes) (off flen : Nat) :
    (off + flen > msg.length → unpack_bytes msg off flen = .error .errBaseLen) ∧
    (∀ v o, unpack_bytes msg off flen = .ok (v, o) →
      off + flen ≤ msg.length ∧ o = off + flen ∧ v = (msg.drop off).take flen) ∧
    (off + 2 > msg.length → unpack_uint16 msg off = .error .errBaseLen) ∧
    (∀ v o, unpack_uint16 msg off = .ok (v, o) → off + 2 ≤ msg.length ∧ o = off + 2) ∧
    (off + 2 > msg.length → skip_uint16 msg off = .error .errBaseLen) ∧
    (∀ o, skip_uint16 msg off = .ok o → off + 2 ≤ msg.length ∧ o = off + 2) ∧
    (off + 4 > msg.length → unpack_uint32 msg off = .error .errBaseLen) ∧
    (∀ v o, unpack_uint32 msg off = .ok (v, o) → off + 4 ≤ msg.length ∧ o = off + 4) ∧
    (off + 4 > msg.length → skip_uint32 msg off = .error .errBaseLen) ∧
    (∀ o, skip_uint32 msg off = .ok o → off + 4 ≤ msg.length ∧ o = off + 4) ∧
    (off ≥ msg.length → unpack_str msg off = .error .errBaseLen) ∧
    (off < msg.length → off + 1 + msg.getD off 0 > msg.length →
      unpack_str msg off = .error .errCalcLen) ∧
    (∀ v o, unpack_str msg off = .ok (v, o) →
      off < msg.length ∧ o = off + 1 + msg.getD off 0 ∧ o ≤ msg.length ∧
        v = (msg.drop (off + 1)).take (msg.getD off 0)) := by
  refine ⟨?_, ?_, ?_, ?_, ?_, ?_, ?_, ?_, ?_, ?_, ?_, ?_, ?_⟩
  · intro h; simp [unpack_bytes, h]
  · intro v o h
    rw [unpack_bytes] at h
    by_cases hc : off + flen > msg.length
    · simp [hc] at h
    · simp [hc] at h
      exact ⟨by omega, h.2.symm, h.1.symm⟩
  · intro h; simp [unpack_uint16, UINT16LEN, h]
  · intro v o h
    rw [unpack_uint16] at h
    by_cases hc : off + UINT16LEN > msg.length
    · simp [hc] at h
    · simp [hc] at h
      refine ⟨by simp [UINT16LEN] at hc; omega, ?_⟩
      rw [← h.2]; rfl
  · intro h; simp [skip_uint16, UINT16LEN, h]
  · intro o h
    rw [skip_uint16] at h
    by_cases hc : off + UINT16LEN > msg.length
    · simp [hc] at h
    · simp [hc] at h
      refine ⟨by simp [UINT16LEN] at hc; omega, ?_⟩
      rw [← h]; rfl
  · intro h; simp [unpack_uint32, UINT32LEN, h]
  · intro v o h
    rw [unpack_uint32] at h
    by_cases hc : off + UINT32LEN > msg.length
    · simp [hc] at h
    · simp [hc] at h
      refine ⟨by simp [UINT32LEN] at hc; omega, ?_⟩
      rw [← h.2]; rfl
  · intro h; simp [skip_uint32, UINT32LEN, h]
  · intro o h
    rw [skip_uint32] at h
    by_cases hc : off + UINT32LEN > msg.length
    · simp [hc] at h
    · simp [hc] at h
      refine ⟨by simp [UINT32LEN] at hc; omega, ?_⟩
      rw [← h]; rfl
  · intro h; simp [unpack_str, h]
  · intro h1 h2
    rw [unpack_str, if_neg (by omega), if_pos h2]
  · intro v o h
    rw [unpack_str] at h
    by_cases h1 : off ≥ msg.length
    · rw [if_pos h1] at h
      exact absurd h (by simp)
    · rw [if_neg h1] at h
      by_cases h2 : off + 1 + msg.getD off 0 > msg.length
      · rw [if_pos h2] at h
        exact absurd h (by simp)
      · rw [if_neg h2] at h
        simp only [Except.ok.injEq, Prod.mk.injEq] at h
        obtain ⟨hv, ho⟩ := h
        exact ⟨by omega, ho.symm, by omega, hv.symm⟩

/-- C2 witness: the bounds theorem applied at concrete inputs. -/
theorem c2_primitive_unpack_bounds_witness :
    unpack_bytes [1, 2, 3] 2 2 = .error .errBaseLen ∧
    unpack_str [5, 104] 0 = .error .errCalcLen :=
  ⟨(c2_primitive_unpack_bounds [1, 2, 3] 2 2).1 (by decide),
   ((c2_primitive_unpack_bounds [5, 104] 0 0).2.2.2.2.2.2.2.2.2.2.2.1 (by decide) (by decide))⟩

/-- C5: the first `close()` on a connection returns success and flips the
closed flag; a second `close()` returns the connection-closed error. -/
theorem c5_double_close (s : DNSConnState) (h : s.is_server_closed = false) :
    (close s).2 = .ok () ∧ (close (close s).1).2 = .error .errConnectionClosed := by
  simp [close, h]

/-- C5 witness: double close on a freshly started connection. -/
theorem c5_double_close_witness :
    (close ⟨false⟩).2 = .ok () ∧ (close (close ⟨false⟩).1).2 = .error .errConnectionClosed :=
  c5_double_close ⟨false⟩ rfl

/-- C6: packing a character-string of at most 255 bytes succeeds and appends
one length byte plus the bytes, and unpacking the result at the old buffer
length returns exactly the string and the offset just past it. -/
theorem c6_str_round_trip (msg s : Bytes) (h : s.length ≤ 255) :
    pack_str msg s = .ok (msg ++ s.length :: s) ∧
    unpack_str (msg ++ s.length :: s) msg.length = .ok (s, msg.length + 1 + s.length) := by
  constructor
  · rw [pack_str, if_neg (by omega), Nat.mod_eq_of_lt (by omega)]
  · have hgd : (msg ++ s.length :: s).getD msg.length 0 = s.length := by
      rw [List.getD_eq_getElem?_getD, List.getElem?_append_right (Nat.le_refl msg.length)]
      simp
    have hdrop : (msg ++ s.length :: s).drop (msg.length + 1) = s := by
      have h1 : (msg ++ s.length :: s).drop msg.length = s.length :: s := List.drop_left _ _
      have h2 := List.drop_drop 1 msg.length (msg ++ s.length :: s)
      rw [h1] at h2
      exact h2.symm
    have hlen : (msg ++ s.length :: s).length = msg.length + 1 + s.length := by
      simp only [List.length_append, List.length_cons]
      omega
    rw [unpack_str, if_neg (by omega), hgd, if_neg (by omega), hdrop, List.take_length]

/-- C6 witness: round trip of a two-byte string appended to a one-byte
buffer. -/
theorem c6_str_round_trip_witness :
    pack_str [7] [104, 105] = .ok [7, 2, 104, 105] ∧
    unpack_str [7, 2, 104, 105] 1 = .ok ([104, 105], 4) :=
  c6_str_round_trip [7] [104, 105] (by decide)

/-- C7: `pack_str` fails, with the string-too-long error, exactly when the
string is longer than 255 bytes; on failure no packed output is produced. -/
theorem c7_pack_str_too_long (msg s : Bytes) :
    (pack_str msg s = .error .errStringTooLong ↔ 255 < s.length) ∧
    (255 < s.length → ∀ out, pack_str msg s ≠ .ok out) := by
  refine ⟨⟨fun h => ?_, fun h => ?_⟩, fun h out => ?_⟩
  · by_contra hc
    rw [pack_str, if_neg hc] at h
    exact absurd h (by simp)
  · rw [pack_str, if_pos h]
  · rw [pack_str, if_pos h]
    simp

/-- C7 witness: a 256-byte string fails to pack. -/
theorem c7_pack_str_too_long_witness :
    pack_str [] (List.replicate 256 0) = .error .errStringTooLong :=
  (c7_pack_str_too_long [] (List.replicate 256 0)).1.mpr
    (by simp only [List.length_replicate]; omega)

/-- C8: 16-bit fields are big-endian: unpacking at an in-bounds offset yields
`256 * msg[off] + msg[off+1]` and offset `off + 2`, and packing a 16-bit value
appends the bytes `field / 256` then `field % 256`. -/
theorem c8_uint16_big_endian (msg : Bytes) (off field : Nat)
    (hw : bytesWF msg) (hoff : off + 2 ≤ msg.length) (hf : field < 65536) :
    unpack_uint16 msg off = .ok (256 * msg.getD off 0 + msg.getD (off + 1) 0, off + 2) ∧
    pack_uint16 msg field = msg ++ [field / 256, field % 256] := by
  have h2 : off + 1 < msg.length := by omega
  have b1lt : msg.getD (off + 1) 0 < 2 ^ 8 := by
    have he : msg.getD (off + 1) 0 = msg[off + 1] := by
      rw [List.getD_eq_getElem?_getD, List.getElem?_eq_getElem h2]
      rfl
    rw [he, show (2 : Nat) ^ 8 = 256 from rfl]
    exact hw _ (List.getElem_mem h2)
  constructor
  · rw [unpack_uint16, if_neg (by simp [UINT16LEN]; omega)]
    have hor : (msg.getD off 0 <<< 8) ||| msg.getD (off + 1) 0
        = 256 * msg.getD off 0 + msg.getD (off + 1) 0 := by
      rw [Nat.shiftLeft_eq, Nat.mul_comm, ← Nat.mul_add_lt_is_or b1lt]
    rw [hor]
    rfl
  · rw [pack_uint16]
    have hsh : field >>> 8 = field / 256 := by
      rw [Nat.shiftRight_eq_div_pow]
    rw [hsh, Nat.mod_eq_of_lt (by omega)]

/-- C8 witness: the 16-bit value 0xABCD packs to bytes 0xAB, 0xCD, and those
bytes unpack back to it. -/
theorem c8_uint16_big_endian_witness :
    unpack_uint16 [171, 205] 0 = .ok (256 * 171 + 205, 2) ∧
    pack_uint16 [171, 205] 43981 = [171, 205, 171, 205] :=
  c8_uint16_big_endian [171, 205] 0 43981 (by unfold bytesWF; decide) (by decide) (by decide)

/-- The registry scan only touches indices below its counter: at counter `j`
(with `j` within bounds) the entries below `j` whose name differs survive in
order, the entries at or above `j` are untouched, and the matching entries
below `j` are delivered highest-index-first. -/
theorem deliverLoop_spec (a : ResourceHeader) (src : SocketAddr) :
    ∀ (j : Nat) (qs : List Query), j ≤ qs.length →
      deliverLoop a src j qs =
        ((qs.take j).filter (fun q => q.name_with_suffix != a.name) ++ qs.drop j,
         (((qs.take j).filter (fun q => q.name_with_suffix == a.name)).reverse).map
           (fun q => ⟨q.chanId, a, src⟩)) := by
  intro j
  induction j with
  | zero => intro qs h; simp [deliverLoop]
  | succ j ih =>
    intro qs h
    have hj : j < qs.length := by omega
    have hq : qs[j]? = some qs[j] := List.getElem?_eq_getElem hj
    have hdropj : qs.drop j = qs[j] :: qs.drop (j + 1) := List.drop_eq_getElem_cons hj
    have htake : qs.take (j + 1) = qs.take j ++ [qs[j]] := by
      rw [List.take_succ, hq]
      rfl
    by_cases hm : qs[j].name_with_suffix = a.name
    · have hlt : (qs.take j).length = j := by
        rw [List.length_take]
        omega
      have herase : qs.eraseIdx j = qs.take j ++ qs.drop (j + 1) :=
        List.eraseIdx_eq_take_drop_succ qs j
      have hlen2 : j ≤ (qs.eraseIdx j).length := by
        rw [herase, List.length_append, hlt]
        omega
      have hih := ih (qs.eraseIdx j) hlen2
      rw [herase, List.take_left' hlt, List.drop_left' hlt] at hih
      have hfilterne : (qs.take (j + 1)).filter (fun q => q.name_with_suffix != a.name)
          = (qs.take j).filter (fun q => q.name_with_suffix != a.name) := by
        rw [htake, List.filter_append]
        simp [List.filter_cons, hm]
      have hfiltereq : (qs.take (j + 1)).filter (fun q => q.name_with_suffix == a.name)
          = (qs.take j).filter (fun q => q.name_with_suffix == a.name) ++ [qs[j]] := by
        rw [htake, List.filter_append]
        simp [List.filter_cons, hm]
      simp only [deliverLoop, hq, if_pos hm]
      rw [herase, hih, hfilterne, hfiltereq]
      simp
    · have hfilterne : (qs.take (j + 1)).filter (fun q => q.name_with_suffix != a.name)
          = (qs.take j).filter (fun q => q.name_with_suffix != a.name) ++ [qs[j]] := by
        rw [htake, List.filter_append]
        simp [List.filter_cons, hm]
      have hfiltereq : (qs.take (j + 1)).filter (fun q => q.name_with_suffix == a.name)
          = (qs.take j).filter (fun q => q.name_with_suffix == a.name) := by
        rw [htake, List.filter_append]
        simp [List.filter_cons, hm]
      simp only [deliverLoop, hq, if_neg hm]
      rw [ih qs (by omega), hfilterne, hfiltereq, hdropj]
      simp

/-- `match_and_deliver` over the whole registry: matching entries are filtered
out and delivered in reverse-registration order, the rest survive in order. -/
theorem matchAndDeliver_eq (a : ResourceHeader) (src : SocketAddr) (qs : List Query) :
    matchAndDeliver a src qs =
      (qs.filter (fun q => q.name_with_suffix != a.name),
       ((qs.filter (fun q => q.name_with_suffix == a.name)).reverse).map
         (fun q => ⟨q.chanId, a, src⟩)) := by
  have h := deliverLoop_spec a src qs.length qs (Nat.le_refl _)
  rw [matchAndDeliver, h, List.take_length, List.drop_length, List.append_nil]

/-- C1: an A or AAAA answer record named `a.name` from source `src` delivers
`(a, src)` to every pending query registered under that name and removes it,
visiting entries most-recently-registered first; every other pending query
survives unchanged and in order. -/
theorem c1_answer_matching (a : ResourceHeader) (src : SocketAddr) (qs : List Query)
    (h : a.typ = DNSType.A ∨ a.typ = DNSType.AAAA) :
    processAnswer a src qs =
      (qs.filter (fun q => q.name_with_suffix != a.name),
       ((qs.filter (fun q => q.name_with_suffix == a.name)).reverse).map
         (fun q => ⟨q.chanId, a, src⟩)) := by
  rw [processAnswer, if_neg (by rcases h with h | h <;> simp [h]), matchAndDeliver_eq]

/-- C1 witness: one A answer for "host.local." against a registry of three
entries delivers to the two matching ones, newest first, and leaves the
other. -/
theorem c1_answer_matching_witness :
    processAnswer ⟨"host.local.", DNSType.A, 1, 120, 4⟩ ⟨.v4 203 0 113 5, 5353⟩
        [⟨"host.local.", 0⟩, ⟨"other.local.", 1⟩, ⟨"host.local.", 2⟩] =
      ([⟨"other.local.", 1⟩],
       [⟨2, ⟨"host.local.", DNSType.A, 1, 120, 4⟩, ⟨.v4 203 0 113 5, 5353⟩⟩,
        ⟨0, ⟨"host.local.", DNSType.A, 1, 120, 4⟩, ⟨.v4 203 0 113 5, 5353⟩⟩]) := by
  rw [c1_answer_matching _ _ _ (Or.inl rfl)]
  rfl

/-- The question loop leaves the answer section alone and consumes exactly
`fuel` questions (or all of them when fewer remain). -/
theorem runQuestionLoop_drains (ln : List String) (src da : SocketAddr) :
    ∀ (fuel : Nat) (p : ParserState),
      (runQuestionLoop ln src da fuel p).1.questions = p.questions.drop fuel ∧
      (runQuestionLoop ln src da fuel p).1.answers = p.answers := by
  intro fuel
  induction fuel with
  | zero => intro p; simp [runQuestionLoop]
  | succ fuel ih =>
    intro p
    obtain ⟨pq, pa⟩ := p
    cases pq with
    | nil => simp [runQuestionLoop, ParserState.question]
    | cons q rest =>
      have hrec := ih ⟨rest, pa⟩
      simp only [runQuestionLoop, ParserState.question]
      simpa using hrec

/-- Once the question section is exhausted, the answer loop keeps it empty and
consumes exactly `fuel` answers (or all of them when fewer remain). -/
theorem runAnswerLoop_drains (src : SocketAddr) :
    ∀ (fuel : Nat) (p : ParserState) (qs : List Query), p.questions = [] →
      (runAnswerLoop src fuel p qs).1.questions = [] ∧
      (runAnswerLoop src fuel p qs).1.answers = p.answers.drop fuel := by
  intro fuel
  induction fuel with
  | zero => intro p qs h; simp [runAnswerLoop, h]
  | succ fuel ih =>
    intro p qs h
    obtain ⟨pq, pa⟩ := p
    simp only at h
    subst h
    cases pa with
    | nil => simp [runAnswerLoop, ParserState.answer_header]
    | cons a rest =>
      by_cases ht : a.typ ≠ DNSType.A ∧ a.typ ≠ DNSType.AAAA
      · have hrec := ih ⟨[], rest⟩ qs rfl
        simp only [runAnswerLoop, ParserState.answer_header, if_pos ht]
        simpa using hrec
      · have hrec := ih ⟨[], rest⟩ (matchAndDeliver a src qs).1 rfl
        simp only [runAnswerLoop, ParserState.answer_header, if_neg ht]
        simpa using hrec

/-- C3 (amended): per datagram, `run` reads at most `MAX_MESSAGE_RECORDS + 1`
(= 4) questions and then at most 4 answers; whenever the parsed message has at
most 4 questions and at most 4 answers, the question section is consumed fully
and then the answer section is consumed fully. -/
theorem c3_run_drains_bounded_sections (p : ParserState) (ln : List String)
    (src da : SocketAddr) (qs : List Query)
    (hq : p.questions.length ≤ MAX_MESSAGE_RECORDS + 1)
    (ha : p.answers.length ≤ MAX_MESSAGE_RECORDS + 1) :
    (run p ln src da qs).parser.questions = [] ∧
    (run p ln src da qs).parser.answers = [] := by
  have h1 := runQuestionLoop_drains ln src da (MAX_MESSAGE_RECORDS + 1) p
  have h2 := runAnswerLoop_drains src (MAX_MESSAGE_RECORDS + 1)
      (runQuestionLoop ln src da (MAX_MESSAGE_RECORDS + 1) p).1 qs
      (by rw [h1.1]; exact List.drop_eq_nil_of_le hq)
  constructor
  · exact h2.1
  · rw [show (run p ln src da qs).parser
        = (runAnswerLoop src (MAX_MESSAGE_RECORDS + 1)
            (runQuestionLoop ln src da (MAX_MESSAGE_RECORDS + 1) p).1 qs).1 from rfl,
      h2.2, h1.2]
    exact List.drop_eq_nil_of_le ha

/-- C3 witness: a one-question, one-answer datagram is drained fully. -/
theorem c3_run_drains_bounded_sections_witness :
    (run ⟨[⟨"x.local.", DNSType.A, 1⟩], [⟨"x.local.", DNSType.A, 1, 120, 4⟩]⟩ []
        ⟨.v4 9 9 9 9, 1⟩ ⟨.v4 224 0 0 251, 5353⟩ []).parser.questions = [] ∧
    (run ⟨[⟨"x.local.", DNSType.A, 1⟩], [⟨"x.local.", DNSType.A, 1, 120, 4⟩]⟩ []
        ⟨.v4 9 9 9 9, 1⟩ ⟨.v4 224 0 0 251, 5353⟩ []).parser.answers = [] :=
  c3_run_drains_bounded_sections _ _ _ _ _ (by decide) (by decide)

/-- C3 counterexample: a successfully parsed datagram carrying five questions;
`run` stops after `MAX_MESSAGE_RECORDS + 1 = 4` of them, so the question
section is not fully consumed (one question is never read or checked),
refuting "regardless of how many questions the message contains". -/
theorem c3_counterexample :
    (run ⟨List.replicate 5 ⟨"host.local.", DNSType.A, 1⟩, []⟩ []
        ⟨.v4 203 0 113 5, 5353⟩ ⟨.v4 224 0 0 251, 5353⟩ []).parser.questions
      = [⟨"host.local.", DNSType.A, 1⟩] := by
  rfl

/-- The concrete server name "host.local." packs: every dot-separated label is
at most 63 bytes. -/
theorem nameWF_host_local : nameWF "host.local." = true := by
  decide

/-- C4: with the local-name table exactly `["host.local."]`, a question whose
decoded name is "host.local." from an IPv4 source triggers exactly one
A-record transmission (body: the source's four octets, TTL `RESPONSE_TTL`);
a question for any other name triggers no transmission. -/
theorem c4_local_name_answering (src : SocketAddr) (o1 o2 o3 o4 : Nat)
    (hsrc : src.ip = IpAddr.v4 o1 o2 o3 o4) (dst_addr : SocketAddr) (q : Question) :
    (q.name = "host.local." →
      processQuestion ["host.local."] src dst_addr q =
        [⟨"host.local.", DNSType.A, [o1, o2, o3, o4], RESPONSE_TTL, dst_addr⟩]) ∧
    (q.name ≠ "host.local." → processQuestion ["host.local."] src dst_addr q = []) := by
  constructor
  · intro h
    simp [processQuestion, h, hsrc, send_answer, nameWF_host_local, Except.toOption]
  · intro h
    simp [processQuestion, Ne.symm h]

/-- C4 witness: the matching and the non-matching question, concretely. -/
theorem c4_local_name_answering_witness :
    processQuestion ["host.local."] ⟨.v4 192 168 1 7, 5353⟩ ⟨.v4 224 0 0 251, 5353⟩
        ⟨"host.local.", DNSType.A, 1⟩ =
      [⟨"host.local.", DNSType.A, [192, 168, 1, 7], RESPONSE_TTL, ⟨.v4 224 0 0 251, 5353⟩⟩] ∧
    processQuestion ["host.local."] ⟨.v4 192 168 1 7, 5353⟩ ⟨.v4 224 0 0 251, 5353⟩
        ⟨"other.local.", DNSType.A, 1⟩ = [] :=
  ⟨(c4_local_name_answering ⟨.v4 192 168 1 7, 5353⟩ 192 168 1 7 rfl ⟨.v4 224 0 0 251, 5353⟩
      ⟨"host.local.", DNSType.A, 1⟩).1 rfl,
   (c4_local_name_answering ⟨.v4 192 168 1 7, 5353⟩ 192 168 1 7 rfl ⟨.v4 224 0 0 251, 5353⟩
      ⟨"other.local.", DNSType.A, 1⟩).2 (by decide)⟩

/-- C9: `query` registers the key `name ++ "."` unconditionally and the server
stores each local name as `l ++ "."`; for a `name` that already ends in a dot
the registered key ends in two dots, so it can never equal a wire-decoded name
ending in a single dot. -/
theorem c9_query_key_double_dot (name : String) :
    name_with_suffix name = name ++ "." ∧
    (∀ ls : List String, serverLocalNames ls = ls.map (fun l => l ++ ".")) ∧
    (endsWithDot name = true →
      singleTrailingDot (name_with_suffix name) = false ∧
      ∀ d : String, singleTrailingDot d = true → name_with_suffix name ≠ d) := by
  refine ⟨rfl, fun ls => rfl, fun h => ?_⟩
  have hk : (name ++ ".").data.reverse = '.' :: name.data.reverse := by
    rw [String.data_append, List.reverse_append]
    rfl
  obtain ⟨c, rest, hr⟩ : ∃ c rest, name.data.reverse = c :: rest := by
    cases hnr : name.data.reverse with
    | nil =>
      rw [endsWithDot, hnr] at h
      exact absurd h (by simp [headIsDot])
    | cons c rest => exact ⟨c, rest, rfl⟩
  have hc : c = '.' := by
    rw [endsWithDot, hr] at h
    simpa [headIsDot] using h
  have hfalse : singleTrailingDot (name_with_suffix name) = false := by
    rw [name_with_suffix, singleTrailingDot, hk, hr, hc]
    simp [singleDotRev]
  refine ⟨hfalse, fun d hd heq => ?_⟩
  rw [← heq, hfalse] at hd
  exact absurd hd (by simp)

/-- C9 witness: the key registered for "host.local." is "host.local.." and
differs from the wire form "host.local.". -/
theorem c9_query_key_double_dot_witness :
    singleTrailingDot (name_with_suffix "host.local.") = false ∧
    name_with_suffix "host.local." ≠ "host.local." :=
  ⟨((c9_query_key_double_dot "host.local.").2.2 (by decide)).1,
   ((c9_query_key_double_dot "host.local.").2.2 (by decide)).2 "host.local." (by decide)⟩

/-- C10: on the answer path the 4-byte A-record body is the datagram source's
own IPv4 address; an IPv6 source makes `send_answer` fail with the
unexpected-IPv6 error, and a matched question from an IPv6 source produces no
transmission. -/
theorem c10_answer_body_is_source (name : String) (hname : nameWF name = true)
    (dst_addr : SocketAddr) :
    (∀ o1 o2 o3 o4, send_answer name (.v4 o1 o2 o3 o4) dst_addr =
      .ok ⟨name, DNSType.A, [o1, o2, o3, o4], RESPONSE_TTL, dst_addr⟩) ∧
    (∀ segs, send_answer name (.v6 segs) dst_addr = .error .errUnexpectedV6) ∧
    (∀ segs port q, q.name = name →
      processQuestion [name] ⟨IpAddr.v6 segs, port⟩ dst_addr q = []) := by
  refine ⟨fun o1 o2 o3 o4 => ?_, fun segs => ?_, fun segs port q hq => ?_⟩
  · rw [send_answer, if_pos hname]
  · rw [send_answer, if_pos hname]
  · simp [processQuestion, hq, send_answer, hname, Except.toOption]

/-- C10 witness: the body transmitted for a query from 10.0.0.9 is 10.0.0.9,
and an IPv6 source is rejected. -/
theorem c10_answer_body_is_source_witness :
    send_answer "host.local." (.v4 10 0 0 9) ⟨.v4 224 0 0 251, 5353⟩ =
      .ok ⟨"host.local.", DNSType.A, [10, 0, 0, 9], RESPONSE_TTL, ⟨.v4 224 0 0 251, 5353⟩⟩ ∧
    send_answer "host.local." (.v6 [1]) ⟨.v4 224 0 0 251, 5353⟩ = .error .errUnexpectedV6 :=
  ⟨(c10_answer_body_is_source "host.local." (by decide) ⟨.v4 224 0 0 251, 5353⟩).1 10 0 0 9,
   (c10_answer_body_is_source "host.local." (by decide) ⟨.v4 224 0 0 251, 5353⟩).2.1 [1]⟩

end Mdns
